import Mathlib

/-!
# Verification of the node_webrtc_signalling_server repository

Shallow embedding of `src/sequential_code_generator.js` and `src/server.js`,
with proofs about the lobby-code generator, the persistence layer, lobby
membership and host migration, signaling relay, sealing, envelope
validation, and peer identities.

Conventions of the embedding:
* JS numbers that are used as integers are `Nat`/`Int` with explicit `%`
  where the code takes a modulus; JSON field values (which may be
  non-integer numbers) are `ℚ`.
* In-place mutation becomes explicit state passing; `async`/`await` becomes
  a `JsVal.promise` wrapper that `jsAwait` unwraps; `throw` of a
  `ProtoError` becomes `Except.error (code, message)`.
* Timers (`setTimeout`/`setInterval`) are outside the state model; the
  messages a handler sends are returned as a list of
  `(destination peer id, frame)` pairs in send order.
-/

namespace CodeGen

/-- `this.ALPHABET` (src/sequential_code_generator.js:7): the base-34 digit
alphabet. Note it contains the letter `I` and the digit `1`, and omits only
`O` and `0`. -/
def ALPHABET : String := "ABCDEFGHIJKLMNPQRSTUVWXYZ123456789"

/-- The alphabet as a list of characters (JS strings are indexed per char). -/
def alphabetL : List Char := ALPHABET.toList

/-- `this.BASE = this.ALPHABET.length` (line 8). -/
def BASE : Nat := alphabetL.length

/-- `this.CODE_LENGTH` (line 9). -/
def CODE_LENGTH : Nat := 6

/-- `this.MAX_CODES = BASE ^ CODE_LENGTH` (line 15). -/
def MAX_CODES : Nat := BASE ^ CODE_LENGTH

/-- JS `string[i]`: character at index `i`, here always in range so the
default is never used. -/
def charAt (i : Nat) : Char := alphabetL.getD i 'A'

/-- The `while (num > 0)` loop of `encodeBase34`
(src/sequential_code_generator.js:48-51): peels base-34 digits from the low
end, prepending each digit character, so the result is most-significant
first. -/
def encLoop (n : Nat) : List Char :=
  if n = 0 then []
  else encLoop (n / BASE) ++ [charAt (n % BASE)]
  termination_by n
  decreasing_by
    exact Nat.div_lt_self (Nat.pos_of_ne_zero (by assumption)) (by decide)

/-- The `while (result.length < this.CODE_LENGTH)` padding loop
(lines 54-56): prepends the zero digit `A` until the length is 6. -/
def padLoop (l : List Char) : List Char :=
  if l.length < CODE_LENGTH then padLoop ('A' :: l) else l
  termination_by CODE_LENGTH - l.length
  decreasing_by simp; omega

/-- `encodeBase34` (src/sequential_code_generator.js:42-59). -/
def encodeBase34 (number : Nat) : String :=
  if number = 0 then String.mk (List.replicate CODE_LENGTH 'A')
  else String.mk (padLoop (encLoop number))

/-- JS `ALPHABET.indexOf(char)`: index of first occurrence, `-1` if absent. -/
def jsIndexOf (c : Char) : Int :=
  match alphabetL.findIdx? (· = c) with
  | some i => (i : Int)
  | none => -1

/-- The `for` loop of `decodeBase34` (lines 64-71), Horner style; the
`throw` on an invalid character is modelled by `none`. -/
def decLoop (acc : Nat) : List Char → Option Nat
  | [] => some acc
  | c :: cs =>
      let v := jsIndexOf c
      if v = -1 then none
      else decLoop (acc * BASE + v.toNat) cs

/-- `decodeBase34` (src/sequential_code_generator.js:62-73). -/
def decodeBase34 (code : String) : Option Nat :=
  decLoop 0 code.toList

/-- `this.multiplier` (line 133). -/
def multiplier : Nat := 1103515245

/-- `this.increment` (line 134). -/
def increment : Nat := 12345

/-- Mutable state of an `EnhancedSequentialCodeGenerator`: the persistent
counter and the process-scoped seed. -/
structure GenState where
  counter : Nat
  seed : Nat
  deriving Repr, DecidableEq

/-- `transformNumber` (src/sequential_code_generator.js:143-147):
`(sequential * multiplier + increment + seed) % MAX_CODES`, with the
arithmetic taken over exact integers. JS numbers are IEEE-754 doubles and
`sequential * multiplier` exceeds `2^53` for counters above 8162278, where
the product rounds; `transformNumberJS` below models that double rounding
faithfully, and the two agree exactly on the range where every
intermediate value stays below `2^53`. -/
def transformNumber (g : GenState) (sequential : Nat) : Nat :=
  (sequential * multiplier + increment + g.seed) % MAX_CODES

/-- `EnhancedSequentialCodeGenerator.generateCode`
(src/sequential_code_generator.js:164-178): wrap-check, transform, encode,
increment-and-save. Returns the code and the new generator state. -/
def generateCode (g : GenState) : String × GenState :=
  let c := if g.counter ≥ MAX_CODES then 1 else g.counter
  let sequential := c
  let transformed := transformNumber { g with counter := c } sequential
  let code := encodeBase34 transformed
  (code, { g with counter := c + 1 })

/-- Number of binary digits of `x`, computed with explicit fuel so that it
is structurally recursive (exact for every `x < 2^fuel`; `bitLen 64`
covers all values arising here, the LCG products staying below `2^61`). -/
def bitLen : Nat → Nat → Nat
  | _, 0 => 0
  | 0, _ => 0
  | f + 1, x + 1 => bitLen f ((x + 1) / 2) + 1

/-- IEEE-754 binary64 rounding (round to nearest, ties to even) of a
non-negative integer value: exact below `2^53`; above, round to the
nearest multiple of `2^(bits - 53)`, ties going to the even quotient.
This is the value a JS `number` holds after an arithmetic operation whose
mathematical result is the integer `x` (for `x < 2^64`). -/
def roundDouble (x : Nat) : Nat :=
  if x < 2 ^ 53 then x
  else
    let ulp := 2 ^ (bitLen 64 x - 53)
    let q := x / ulp
    let r := x % ulp
    if r < ulp / 2 then q * ulp
    else if ulp / 2 < r then (q + 1) * ulp
    else if q % 2 = 0 then q * ulp
    else (q + 1) * ulp

/-- `transformNumber` under faithful JS double semantics: the expression
`sequential * this.multiplier + this.increment + this.seed` evaluates
left-to-right with each intermediate result rounded to binary64
(`roundDouble`); the final `%` on doubles is exact (the true remainder of
two doubles is representable, and here it is an integer below `2^31`).
Validated against actual IEEE-754 evaluation on 200000 random inputs and
the exactness boundary. -/
def transformNumberJS (g : GenState) (sequential : Nat) : Nat :=
  roundDouble (roundDouble (roundDouble (sequential * multiplier) + increment)
    + g.seed) % MAX_CODES

/-- `generateCode` with the transform evaluated under JS double semantics
(`transformNumberJS`); otherwise identical to `generateCode` — the
wrap-check comparison and the counter increment involve only values below
`2^53`, where doubles are exact. -/
def generateCodeJS (g : GenState) : String × GenState :=
  let c := if g.counter ≥ MAX_CODES then 1 else g.counter
  let sequential := c
  let transformed := transformNumberJS { g with counter := c } sequential
  let code := encodeBase34 transformed
  (code, { g with counter := c + 1 })

end CodeGen

namespace Server

/-! ## Data model of `src/server.js` -/

/-- `MAX_SAVE_GAMES` (src/server.js:8). -/
def MAX_SAVE_GAMES : Nat := 10000

/-- `MAX_PEERS` (src/server.js:9). -/
def MAX_PEERS : Nat := 4096

/-- `MAX_LOBBIES` (src/server.js:10). -/
def MAX_LOBBIES : Nat := 1024 * 1024

def STR_ONLY_HOST_CAN_SEAL : String := "Only host can seal the lobby"
def STR_TOO_MANY_LOBBIES : String := "Too many lobbies open, disconnecting"
def STR_ALREADY_IN_LOBBY : String := "Already in a lobby"
def STR_LOBBY_DOES_NOT_EXISTS : String := "Lobby does not exists"
def STR_LOBBY_IS_SEALED : String := "Lobby is sealed"
def STR_INVALID_FORMAT : String := "Invalid message format"
def STR_NEED_LOBBY : String := "Invalid message when not in a lobby"
def STR_SERVER_ERROR : String := "Server error, lobby not found"
def STR_INVALID_DEST : String := "Invalid destination"
def STR_INVALID_CMD : String := "Invalid command"
def STR_NEW_HOST : String := "You are now the host"

/-! The `CMD` command vocabulary (src/server.js:37-49), as the integers of
the wire envelope. -/
namespace CMD
def JOIN : Int := 0
def ID : Int := 1
def PEER_CONNECT : Int := 2
def PEER_DISCONNECT : Int := 3
def OFFER : Int := 4
def ANSWER : Int := 5
def CANDIDATE : Int := 6
def SEAL : Int := 7
def HOST_CHANGED : Int := 8
end CMD

/-- JS runtime values the server passes around: the persistence layer mixes
binary blobs (`Buffer`), `{gameState, timestamp}` objects, unresolved
Promises, `null` and `undefined`; JSON field values may be numbers
(possibly non-integer, hence `ℚ`) or strings. -/
inductive JsVal where
  | undefined
  | jsNull
  | num (q : ℚ)
  | str (s : String)
  | buf (b : List Nat)
  | promise (v : JsVal)
  | entry (gameState : JsVal) (timestamp : Nat)
  deriving Repr, DecidableEq

/-- JS truthiness for the values of `JsVal` (objects, Buffers and Promises
are truthy; `undefined`, `null`, `0` and `""` are falsy). -/
def truthy : JsVal → Bool
  | .undefined => false
  | .jsNull => false
  | .num q => q ≠ 0
  | .str s => s ≠ ""
  | .buf _ => true
  | .promise _ => true
  | .entry _ _ => true

/-- `await`: unwraps (nested) promises; other values pass through. -/
def jsAwait : JsVal → JsVal
  | .promise v => jsAwait v
  | v => v

/-- JS member access `x.gameState` (`undefined` on objects without it). -/
def getGameState : JsVal → JsVal
  | .entry g _ => g
  | _ => .undefined

/-- JS member access `x.timestamp`; `none` models `undefined` (for which
every `<` comparison is false). -/
def getTimestamp : JsVal → Option Nat
  | .entry _ t => some t
  | _ => none

/-- `Map.prototype.get`: association-list lookup (JS `Map` preserves
insertion order). -/
def mapGet {α : Type} (m : List (String × α)) (k : String) : Option α :=
  (m.find? (fun kv => kv.1 == k)).map (fun kv => kv.2)

/-- `Map.prototype.set`: update in place if the key exists (keeping its
position), else append. -/
def mapSet {α : Type} (m : List (String × α)) (k : String) (v : α) :
    List (String × α) :=
  if (m.find? (fun kv => kv.1 == k)).isSome then
    m.map (fun kv => if kv.1 == k then (k, v) else kv)
  else
    m ++ [(k, v)]

/-- `Map.prototype.delete`. -/
def mapDelete {α : Type} (m : List (String × α)) (k : String) :
    List (String × α) :=
  m.filter (fun kv => kv.1 != k)

/-- State of the persistence layer: the in-memory snapshot cache
(`GameStateDB.savedGames`, src/server.js:126) and the external `sessions`
table keyed by code (src/server.js § save_to_db / load_from_db). -/
structure ServerDB where
  savedGames : List (String × JsVal)
  store : List (String × JsVal)
  deriving Repr, DecidableEq

/-- `save_to_db` (src/server.js:90-105): upsert of `(code, state)` into the
`sessions` table. -/
def save_to_db (db : ServerDB) (code : String) (state : JsVal) : ServerDB :=
  { db with store := mapSet db.store code state }

/-- The `try` body of `load_from_db` (src/server.js:106-119). The query
result is bound to `rows`, but the emptiness test reads the undeclared
identifier `rozws` (line 113), which raises a `ReferenceError`; the
continuation after that point (returning `rows[0].save_state`) is
unreachable. -/
def load_from_db_body (db : ServerDB) (code : String) : Except String JsVal := do
  let rows : List JsVal :=
    match mapGet db.store code with
    | some v => [v]
    | none => []
  let rozws : List JsVal ← Except.error "ReferenceError: rozws is not defined"
  if rozws.length = 0 then
    return JsVal.jsNull
  else
    return rows.headD JsVal.undefined

/-- `load_from_db` (src/server.js:106-119): the `catch` swallows the
`ReferenceError` and the async function resolves to `undefined` on every
input. -/
def load_from_db (db : ServerDB) (code : String) : JsVal :=
  match load_from_db_body db code with
  | Except.ok v => v
  | Except.error _ => JsVal.undefined

/-- `GameStateDB.getOldestSave` (src/server.js:171-181): entry with the
strictly smallest timestamp (`undefined` timestamps never compare `<`). -/
def getOldestSave (m : List (String × JsVal)) : Option String :=
  (m.foldl
    (fun (acc : Option String × Option Nat) kv =>
      match getTimestamp kv.2, acc.2 with
      | some t, some best => if t < best then (some kv.1, some t) else acc
      | some t, none => (some kv.1, some t)
      | none, _ => acc)
    (none, none)).1

/-- `GameStateDB.saveOldestGameIfNeeded` (src/server.js:182-191): when the
cache holds more than `MAX_SAVE_GAMES` entries, flush the oldest entry's
`gameState` to the store and drop it from the cache. -/
def saveOldestGameIfNeeded (db : ServerDB) : ServerDB :=
  if db.savedGames.length > MAX_SAVE_GAMES then
    match getOldestSave db.savedGames with
    | some oldest =>
        let save_state := (mapGet db.savedGames oldest).getD JsVal.undefined
        let db1 := save_to_db db oldest (getGameState save_state)
        { db1 with savedGames := mapDelete db1.savedGames oldest }
    | none => db
  else db

/-- `GameStateDB.saveGame` (src/server.js:129-142): cache the
`{gameState, timestamp}` object under the code, then apply the eviction
discipline. `now` is `Date.now()`. -/
def saveGame (db : ServerDB) (joinCode : String) (gameState : JsVal)
    (now : Nat) : Bool × ServerDB :=
  let db1 := { db with
    savedGames := mapSet db.savedGames joinCode (JsVal.entry gameState now) }
  (true, saveOldestGameIfNeeded db1)

/-- `GameStateDB.loadGame` (src/server.js:144-166). On a cache hit it
returns the entry's `gameState`. On a miss the call to `load_from_db` is
**not awaited** (line 150), so `saveState` is a pending Promise — which is
truthy — and that Promise is what gets cached and returned; the `return
null` at the end is reached only if `saveState` were falsy, which a Promise
never is. -/
def loadGame (db : ServerDB) (joinCode : String) : JsVal × ServerDB :=
  let savedGame := (mapGet db.savedGames joinCode).getD JsVal.undefined
  if truthy savedGame then
    (getGameState savedGame, db)
  else
    let saveState := JsVal.promise (load_from_db db joinCode)
    if truthy saveState then
      let db1 := { db with savedGames := mapSet db.savedGames joinCode saveState }
      (saveState, saveOldestGameIfNeeded db1)
    else
      (JsVal.jsNull, db)

/-- A control frame as built by `ProtoMessage` (src/server.js:201-207). -/
structure ProtoMsg where
  type : Int
  id : Int
  data : String
  deriving Repr, DecidableEq

/-- A websocket frame sent to a client: textual control envelope or raw
binary payload. -/
inductive Frame where
  | text (m : ProtoMsg)
  | binary (v : JsVal)
  deriving Repr, DecidableEq

/-- A connected peer (class `Peer`, src/server.js:220-232): its random
identity and the name of the lobby it is in (`''` until joined). The
transport handle and the join-deadline timer are outside the model. -/
structure PeerState where
  id : Nat
  lobby : String
  deriving Repr, DecidableEq

/-- A lobby (class `Lobby`, src/server.js:234-336). Members are listed by
peer identity in join order (the source holds `Peer` objects and compares
them by object identity; identities are assumed unique per the spec's
membership invariant). The `closeTimer` handle is outside the model. -/
structure Lobby where
  name : String
  host : Nat
  mesh : Bool
  peers : List Nat
  sealed : Bool
  gameState : Option JsVal
  deriving Repr, DecidableEq

/-- `new Lobby(name, host, mesh)` (src/server.js:235-243). -/
def Lobby.new (name : String) (host : Nat) (mesh : Bool) : Lobby :=
  ⟨name, host, mesh, [], false, none⟩

/-- `Lobby.getPeerId` (src/server.js:245-250): the host is addressed by the
reserved in-lobby id 1, everyone else by its raw identity. -/
def Lobby.getPeerId (l : Lobby) (pid : Nat) : Nat :=
  if l.host = pid then 1 else pid

/-- Truthiness of `this.gameState` (a `null` field is falsy). -/
def jsTruthyOpt : Option JsVal → Bool
  | none => false
  | some v => truthy v

/-- `Lobby.join` (src/server.js:252-260): send the joiner its assigned id
(with `data = "true"` iff mesh), cross-announce `PEER_CONNECT` between the
joiner and every existing member, then append the joiner. -/
def Lobby.join (l : Lobby) (pid : Nat) : Lobby × List (Nat × ProtoMsg) :=
  let assigned := l.getPeerId pid
  let sends :=
    (pid, ProtoMsg.mk CMD.ID (assigned : Int) (if l.mesh then "true" else ""))
    :: l.peers.flatMap (fun p =>
        [(p, ProtoMsg.mk CMD.PEER_CONNECT (assigned : Int) ""),
         (pid, ProtoMsg.mk CMD.PEER_CONNECT ((l.getPeerId p : Nat) : Int) "")])
  ({ l with peers := l.peers ++ [pid] }, sends)

/-- `Lobby.leave` (src/server.js:262-307). Returns
`(shouldClose, lobby', sends, db')`: whether the caller should close the
lobby, the updated lobby, the frames sent (in order), and the persistence
state after the possible `gameStateDB.saveGame` call (`now` is
`Date.now()`). A peer not in the member list returns `false` unchanged. -/
def Lobby.leave (l : Lobby) (pid : Nat) (db : ServerDB) (now : Nat) :
    Bool × Lobby × List (Nat × ProtoMsg) × ServerDB :=
  match l.peers.findIdx? (fun p => p == pid) with
  | none => (false, l, [], db)
  | some idx =>
      let assigned := l.getPeerId pid
      let wasHost := assigned = 1
      let peers1 := l.peers.eraseIdx idx
      if wasHost then
        if peers1.isEmpty then
          let db1 :=
            if jsTruthyOpt l.gameState then
              (saveGame db l.name (l.gameState.getD JsVal.undefined) now).2
            else db
          (true, { l with peers := peers1 }, [], db1)
        else
          let newHost := peers1.headD 0
          (false, { l with peers := peers1, host := newHost },
            [(newHost, ProtoMsg.mk CMD.HOST_CHANGED 1 STR_NEW_HOST)], db)
      else
        (false, { l with peers := peers1 },
          peers1.map (fun p => (p, ProtoMsg.mk CMD.PEER_DISCONNECT (assigned : Int) "")),
          db)

/-- `Lobby.seal` (src/server.js:309-326): only the host may seal; on
success set `sealed` and broadcast `SEAL(0)` to every member (the 10 s
close timer is outside the model). The `throw` happens before any
mutation, so on error the lobby is unchanged. -/
def Lobby.seal (l : Lobby) (pid : Nat) :
    Except (Int × String) (Lobby × List (Nat × ProtoMsg)) :=
  if pid ≠ l.host then
    Except.error (4000, STR_ONLY_HOST_CAN_SEAL)
  else
    Except.ok ({ l with sealed := true },
      l.peers.map (fun p => (p, ProtoMsg.mk CMD.SEAL 0 "")))

/-- `Lobby.updateGameState` (src/server.js:328-331). -/
def Lobby.updateGameState (l : Lobby) (gs : JsVal) : Lobby :=
  { l with gameState := some gs }

/-- Process-wide mutable state: the lobby registry, the code generator and
the persistence layer. -/
structure SrvState where
  lobbies : List (String × Lobby)
  gen : CodeGen.GenState
  db : ServerDB
  deriving Repr, DecidableEq

/-- The common tail of `joinLobby` (src/server.js:383-397): re-resolve the
lobby (`Server error, lobby not found` if absent), set `peer.lobby`, run
`Lobby.join`, acknowledge with `JOIN(0, lobbyName)`, and on a restore send
the restored blob as a binary frame. -/
def joinFinish (st : SrvState) (peer : PeerState) (lobbyName : String)
    (isRestoredGame : Bool) (savedGameState : JsVal) :
    Except (Int × String) (SrvState × PeerState × List (Nat × Frame)) :=
  match mapGet st.lobbies lobbyName with
  | none => Except.error (4000, STR_SERVER_ERROR)
  | some lobby =>
      let peer1 := { peer with lobby := lobbyName }
      let res := lobby.join peer.id
      let st1 := { st with lobbies := mapSet st.lobbies lobbyName res.1 }
      let sends :=
        res.2.map (fun m => (m.1, Frame.text m.2))
        ++ [(peer.id, Frame.text (ProtoMsg.mk CMD.JOIN 0 lobbyName))]
        ++ (if isRestoredGame ∧ truthy savedGameState
            then [(peer.id, Frame.binary savedGameState)] else [])
      Except.ok (st1, peer1, sends)

/-- `joinLobby` (src/server.js:341-398). Empty requested code: capacity and
not-already-in-a-lobby checks, then create a lobby under a generated code.
Non-empty code: attach to the registered lobby unless sealed; if
unregistered, consult `gameStateDB.loadGame` (whose awaited value is the
restored blob — or `undefined`, given the bugs noted at `loadGame`) and
either restore or fail `Lobby does not exists`. A fresh restored lobby is
unsealed, so the sealed check passes on that path. The pre-throw cache
mutation done by `loadGame` on the failing restore path is not carried by
the error value (no claim depends on it). -/
def joinLobby (st : SrvState) (peer : PeerState) (pLobby : String)
    (mesh : Bool) :
    Except (Int × String) (SrvState × PeerState × List (Nat × Frame)) :=
  if pLobby = "" then
    if st.lobbies.length ≥ MAX_LOBBIES then
      Except.error (4000, STR_TOO_MANY_LOBBIES)
    else if peer.lobby ≠ "" then
      Except.error (4000, STR_ALREADY_IN_LOBBY)
    else
      let g := CodeGen.generateCode st.gen
      let lobbyName := g.1
      let st1 :=
        { st with
          gen := g.2
          lobbies := mapSet st.lobbies lobbyName (Lobby.new lobbyName peer.id mesh) }
      joinFinish st1 peer lobbyName false JsVal.undefined
  else
    match mapGet st.lobbies pLobby with
    | none =>
        let lr := loadGame st.db pLobby
        let savedGameState := jsAwait lr.1
        let st1 := { st with db := lr.2 }
        if truthy savedGameState then
          if peer.lobby ≠ "" then
            Except.error (4000, STR_ALREADY_IN_LOBBY)
          else
            let lobby := { Lobby.new pLobby peer.id mesh with
              gameState := some savedGameState }
            let st2 := { st1 with lobbies := mapSet st1.lobbies pLobby lobby }
            joinFinish st2 peer pLobby true savedGameState
        else
          Except.error (4000, STR_LOBBY_DOES_NOT_EXISTS)
    | some lobby =>
        if lobby.sealed then
          Except.error (4000, STR_LOBBY_IS_SEALED)
        else
          joinFinish st peer pLobby false JsVal.undefined

/-- An inbound websocket message: binary payload, unparseable text, or a
parsed JSON envelope reduced to its three field lookups (`undefined` for an
absent field). -/
inductive InMsg where
  | binary (b : JsVal)
  | badText
  | text (envType envId envData : JsVal)
  deriving Repr, DecidableEq

/-- `typeof x === 'number' ? Math.floor(x) : -1` (src/server.js:421-422). -/
def coerceInt (v : JsVal) : Int :=
  match v with
  | .num q => ⌊q⌋
  | _ => -1

/-- `typeof x === 'string' ? x : ''` (src/server.js:423). -/
def coerceStr (v : JsVal) : String :=
  match v with
  | .str s => s
  | _ => ""

/-- `parseMsg` (src/server.js:400-471): binary frames are game-state saves
(host only; on a peer with no registered lobby the `lobby.host` access
raises a TypeError, which the connection handler maps to close code 4000);
textual frames are validated (`type`/`id` coerced with `coerceInt`,
negative means invalid) and dispatched to JOIN / SEAL / relay. -/
def parseMsg (st : SrvState) (peer : PeerState) (msg : InMsg) :
    Except (Int × String) (SrvState × PeerState × List (Nat × Frame)) :=
  match msg with
  | .binary b =>
      match mapGet st.lobbies peer.lobby with
      | none => Except.error (4000, "TypeError: lobby is undefined")
      | some lobby =>
          if peer.id ≠ lobby.host then
            Except.error (4000, "Only host can save game state")
          else
            Except.ok ({ st with
              lobbies := mapSet st.lobbies peer.lobby (lobby.updateGameState b) },
              peer, [])
  | .badText => Except.error (4000, STR_INVALID_FORMAT)
  | .text envType envId envData =>
      let type := coerceInt envType
      let id := coerceInt envId
      let data := coerceStr envData
      if type < 0 ∨ id < 0 then
        Except.error (4000, STR_INVALID_FORMAT)
      else if type = CMD.JOIN then
        joinLobby st peer data (id == 0)
      else if peer.lobby = "" then
        Except.error (4000, STR_NEED_LOBBY)
      else
        match mapGet st.lobbies peer.lobby with
        | none => Except.error (4000, STR_SERVER_ERROR)
        | some lobby =>
            if type = CMD.SEAL then
              match lobby.seal peer.id with
              | Except.error e => Except.error e
              | Except.ok r =>
                  Except.ok ({ st with
                    lobbies := mapSet st.lobbies peer.lobby r.1 },
                    peer, r.2.map (fun m => (m.1, Frame.text m.2)))
            else if type = CMD.OFFER ∨ type = CMD.ANSWER ∨ type = CMD.CANDIDATE then
              let destId : Int := if id = 1 then (lobby.host : Int) else id
              match lobby.peers.find? (fun e => ((e : Nat) : Int) == destId) with
              | none => Except.error (4000, STR_INVALID_DEST)
              | some dest =>
                  Except.ok (st, peer,
                    [(dest, Frame.text
                      (ProtoMsg.mk type ((lobby.getPeerId peer.id : Nat) : Int) data))])
            else
              Except.error (4000, STR_INVALID_CMD)

/-- Reading 4 random bytes as a signed 32-bit integer (little-endian view
of `crypto.randomBytes(4).buffer`): the unsigned value `b < 2^32`
reinterpreted in two's complement. -/
def toInt32 (b : Nat) : Int :=
  if b < 2 ^ 31 then (b : Int) else (b : Int) - 2 ^ 32

/-- `randomId` (src/server.js:196-198):
`Math.abs(new Int32Array(crypto.randomBytes(4).buffer)[0])`. -/
def randomId (bytes : Nat) : Nat :=
  (toInt32 bytes).natAbs

end Server

namespace CodeGen

/-! ## Basic facts about the alphabet and the loops -/

theorem BASE_eq : BASE = 34 := by decide

theorem BASE_pos : 0 < BASE := by decide

theorem MAX_CODES_pos : 0 < MAX_CODES := by decide

/-- Looking up the character of a digit `d < 34` in the alphabet recovers
`d`: the alphabet has no repeated characters. -/
theorem jsIndexOf_charAt : ∀ d, d < BASE → jsIndexOf (charAt d) = (d : Int) := by
  decide

theorem charAt_mem : ∀ d, d < BASE → charAt d ∈ alphabetL := by decide

/-- Unfolding equation for the encode loop. -/
theorem encLoop_eq (n : Nat) :
    encLoop n = if n = 0 then [] else encLoop (n / BASE) ++ [charAt (n % BASE)] := by
  rw [encLoop]

/-- The padding loop left-pads with the zero digit `A` up to length 6. -/
theorem padLoop_eq_aux :
    ∀ k l, CODE_LENGTH - l.length = k → padLoop l = List.replicate k 'A' ++ l := by
  intro k
  induction k with
  | zero =>
      intro l h
      have hnl : ¬ l.length < CODE_LENGTH := by omega
      rw [padLoop, if_neg hnl]
      simp
  | succ k ih =>
      intro l h
      have hl : l.length < CODE_LENGTH := by omega
      rw [padLoop, if_pos hl, ih ('A' :: l) (by simp; omega)]
      rw [List.replicate_succ']
      simp

theorem padLoop_eq (l : List Char) :
    padLoop l = List.replicate (CODE_LENGTH - l.length) 'A' ++ l :=
  padLoop_eq_aux _ l rfl

/-- Horner decoding distributes over list append. -/
theorem decLoop_append (acc : Nat) (xs ys : List Char) :
    decLoop acc (xs ++ ys) = (decLoop acc xs).bind (fun r => decLoop r ys) := by
  induction xs generalizing acc with
  | nil => simp [decLoop]
  | cons c cs ih =>
      simp only [List.cons_append, decLoop]
      by_cases h : jsIndexOf c = -1
      · simp [h]
      · simp [h, ih]

/-- Decoding the raw (unpadded) encoding of `n` starting from accumulator
`acc` yields `acc` shifted past the digits, plus `n`. -/
theorem decLoop_encLoop :
    ∀ n acc, decLoop acc (encLoop n) = some (acc * BASE ^ (encLoop n).length + n) := by
  intro n
  induction n using Nat.strong_induction_on with
  | _ n ih =>
    intro acc
    by_cases h : n = 0
    · subst h; rw [encLoop_eq]; simp [decLoop]
    · rw [encLoop_eq, if_neg h, decLoop_append, ih (n / BASE)
        (Nat.div_lt_self (Nat.pos_of_ne_zero h) (by decide))]
      have hmod : n % BASE < BASE := Nat.mod_lt _ BASE_pos
      have hne : ((n % BASE : ℕ) : Int) ≠ -1 := by omega
      simp only [Option.some_bind, decLoop, jsIndexOf_charAt _ hmod]
      rw [if_neg hne]
      simp only [decLoop, Int.toNat_natCast, List.length_append, List.length_cons,
        List.length_nil]
      congr 1
      have hd : n / BASE * BASE + n % BASE = n := Nat.div_add_mod' n BASE
      calc (acc * BASE ^ (encLoop (n / BASE)).length + n / BASE) * BASE + n % BASE
          = acc * (BASE ^ (encLoop (n / BASE)).length * BASE)
            + (n / BASE * BASE + n % BASE) := by ring
        _ = acc * BASE ^ ((encLoop (n / BASE)).length + 1) + n := by
            rw [hd, pow_succ]

theorem decLoop_replicate_A : ∀ k, decLoop 0 (List.replicate k 'A') = some 0 := by
  intro k
  induction k with
  | zero => simp [decLoop]
  | succ k ih =>
      rw [List.replicate_succ]
      simp only [decLoop]
      have : jsIndexOf 'A' = (0 : Int) := by decide
      rw [this]
      simpa using ih

/-- Round-trip: decoding an encoded number recovers it (for every `n`, not
only below `34^6`; above that bound the string is just longer than 6). -/
theorem decode_encode (n : Nat) : decodeBase34 (encodeBase34 n) = some n := by
  unfold decodeBase34 encodeBase34
  by_cases h : n = 0
  · subst h
    rw [if_pos rfl]
    show decLoop 0 (List.replicate CODE_LENGTH 'A') = some 0
    exact decLoop_replicate_A _
  · rw [if_neg h]
    show decLoop 0 (padLoop (encLoop n)) = some n
    rw [padLoop_eq, decLoop_append, decLoop_replicate_A, Option.some_bind,
      decLoop_encLoop]
    simp

/-! ## C1: the program is not collision-free over `[1, 34^6)` -/

/-- C1 evaluated at the failing input under faithful JS double semantics.
The counters `1400000000` and `1402129726` are distinct, both in
`[1, 34^6)` (same run, same seed 12345, no wrap), yet the double-rounded
LCG step maps both to the residue `753777536`, so `generateCode` returns
the *same* code for both — the generator is not collision-free over the
claimed range. The last two conjuncts document the divergence between the
doubles the program computes and exact integer arithmetic: at counter
`10^9` with seed 0 the program computes `1421152640` where the exact
affine map gives `1421152697`. -/
theorem generateCodeJS_collision :
    (1400000000 : Nat) ≠ 1402129726
    ∧ 1 ≤ (1400000000 : Nat) ∧ (1400000000 : Nat) < MAX_CODES
    ∧ 1 ≤ (1402129726 : Nat) ∧ (1402129726 : Nat) < MAX_CODES
    ∧ transformNumberJS ⟨1400000000, 12345⟩ 1400000000 = 753777536
    ∧ transformNumberJS ⟨1402129726, 12345⟩ 1402129726 = 753777536
    ∧ (generateCodeJS ⟨1400000000, 12345⟩).1 = (generateCodeJS ⟨1402129726, 12345⟩).1
    ∧ transformNumberJS ⟨1000000000, 0⟩ 1000000000 = 1421152640
    ∧ transformNumber ⟨1000000000, 0⟩ 1000000000 = 1421152697 := by
  have h1 : transformNumberJS ⟨1400000000, 12345⟩ 1400000000 = 753777536 := by
    decide
  have h2 : transformNumberJS ⟨1402129726, 12345⟩ 1402129726 = 753777536 := by
    decide
  have hcode : (generateCodeJS ⟨1400000000, 12345⟩).1
      = (generateCodeJS ⟨1402129726, 12345⟩).1 := by
    have hw1 : ¬ ((1400000000 : Nat) ≥ MAX_CODES) := by decide
    have hw2 : ¬ ((1402129726 : Nat) ≥ MAX_CODES) := by decide
    simp only [generateCodeJS, if_neg hw1, if_neg hw2, h1, h2]
  exact ⟨by decide, by decide, by decide, by decide, by decide, h1, h2, hcode,
    by decide, by decide⟩

/-- C2. `decodeBase34 ∘ encodeBase34` is the identity on `[0, 34^6)`. -/
theorem decode_encode_roundtrip (n : Nat) (_h : n < MAX_CODES) :
    decodeBase34 (encodeBase34 n) = some n :=
  decode_encode n

/-- Witness for C2 at `n = 5`. -/
theorem decode_encode_roundtrip_witness :
    5 < MAX_CODES ∧ decodeBase34 (encodeBase34 5) = some 5 :=
  ⟨by decide, decode_encode_roundtrip 5 (by decide)⟩

/-! ## C3: shape of issued codes -/

/-- Every character produced by the encode loop is an alphabet character. -/
theorem encLoop_mem : ∀ n c, c ∈ encLoop n → c ∈ alphabetL := by
  intro n
  induction n using Nat.strong_induction_on with
  | _ n ih =>
    intro c hc
    by_cases h : n = 0
    · subst h; rw [encLoop_eq] at hc; simp at hc
    · rw [encLoop_eq, if_neg h, List.mem_append] at hc
      rcases hc with hc | hc
      · exact ih (n / BASE) (Nat.div_lt_self (Nat.pos_of_ne_zero h) (by decide)) c hc
      · rw [List.mem_singleton] at hc
        subst hc
        exact charAt_mem _ (Nat.mod_lt _ BASE_pos)

/-- `n < 34^k` gives at most `k` digits. -/
theorem encLoop_length_le : ∀ k n, n < BASE ^ k → (encLoop n).length ≤ k := by
  intro k
  induction k with
  | zero =>
      intro n hn
      have : n = 0 := by simpa using hn
      subst this
      rw [encLoop_eq]
      simp
  | succ k ih =>
      intro n hn
      by_cases h : n = 0
      · subst h; rw [encLoop_eq]; simp
      · rw [encLoop_eq, if_neg h]
        have hdiv : n / BASE < BASE ^ k := by
          rw [Nat.div_lt_iff_lt_mul BASE_pos]
          rw [pow_succ] at hn
          exact hn
        simp only [List.length_append, List.length_cons, List.length_nil]
        have := ih (n / BASE) hdiv
        omega

theorem encodeBase34_length (n : Nat) (h : n < MAX_CODES) :
    (encodeBase34 n).toList.length = CODE_LENGTH := by
  unfold encodeBase34
  by_cases h0 : n = 0
  · subst h0
    rw [if_pos rfl]
    show (List.replicate CODE_LENGTH 'A').length = CODE_LENGTH
    simp
  · rw [if_neg h0]
    show (padLoop (encLoop n)).length = CODE_LENGTH
    rw [padLoop_eq]
    have hle : (encLoop n).length ≤ CODE_LENGTH := encLoop_length_le CODE_LENGTH n h
    simp only [List.length_append, List.length_replicate]
    omega

theorem encodeBase34_mem (n : Nat) :
    ∀ c ∈ (encodeBase34 n).toList, c ∈ alphabetL := by
  intro c hc
  unfold encodeBase34 at hc
  by_cases h0 : n = 0
  · rw [if_pos h0] at hc
    replace hc : c ∈ List.replicate CODE_LENGTH 'A' := hc
    rw [List.eq_of_mem_replicate hc]
    decide
  · rw [if_neg h0] at hc
    replace hc : c ∈ padLoop (encLoop n) := hc
    rw [padLoop_eq, List.mem_append] at hc
    rcases hc with hc | hc
    · rw [List.eq_of_mem_replicate hc]; decide
    · exact encLoop_mem n c hc

/-- C3, amended. Every code returned by `generateCode` is a 6-character
string over the base-34 alphabet, which excludes `O` and `0` (but does
contain `I`, see the counterexample). -/
theorem generateCode_shape (g : GenState) :
    (generateCode g).1.toList.length = CODE_LENGTH
    ∧ (∀ c ∈ (generateCode g).1.toList, c ∈ ALPHABET.toList)
    ∧ (∀ c ∈ (generateCode g).1.toList, c ≠ 'O' ∧ c ≠ '0') := by
  have hO : ('O' ∈ alphabetL) = False := by decide
  have h0 : ('0' ∈ alphabetL) = False := by decide
  have hlt : transformNumber { g with counter := if g.counter ≥ MAX_CODES then 1 else g.counter }
      (if g.counter ≥ MAX_CODES then 1 else g.counter) < MAX_CODES :=
    Nat.mod_lt _ MAX_CODES_pos
  simp only [generateCode]
  refine ⟨encodeBase34_length _ hlt, fun c hc => encodeBase34_mem _ c hc, fun c hc => ?_⟩
  have hmem := encodeBase34_mem _ c hc
  constructor
  · intro hO'; subst hO'; rw [hO] at hmem; exact hmem
  · intro h0'; subst h0'; rw [h0] at hmem; exact hmem

/-- The last base-34 digit of `n` appears in `encodeBase34 n`. -/
theorem lastDigit_mem_encodeBase34 (n : Nat) (h : n ≠ 0) :
    charAt (n % BASE) ∈ (encodeBase34 n).toList := by
  unfold encodeBase34
  rw [if_neg h]
  show charAt (n % BASE) ∈ padLoop (encLoop n)
  rw [padLoop_eq, List.mem_append, encLoop_eq, if_neg h, List.mem_append]
  right; right
  simp

/-- Counterexample for C3 as stated: with seed 12345 the 30th issued code
(code `E5L5IN`, transformed value 664589304 whose last base-34 digit is 8)
contains the letter `I`, which the claimed regex excludes. -/
theorem generateCode_contains_I :
    'I' ∈ ((generateCode ⟨30, 12345⟩).1).toList := by
  have hw : ¬ ((30 : Nat) ≥ MAX_CODES) := by decide
  have ht : transformNumber ⟨30, 12345⟩ 30 = 664589304 := by decide
  simp only [generateCode, if_neg hw, ht]
  have : charAt (664589304 % BASE) = 'I' := by decide
  rw [← this]
  exact lastDigit_mem_encodeBase34 _ (by decide)

/-- Witness for the amended C3 at generator state `⟨1, 0⟩`: the issued
code's last digit character is in the alphabet and is neither `O` nor
`0`. -/
theorem generateCode_shape_witness :
    (generateCode ⟨1, 0⟩).1.toList.length = CODE_LENGTH
    ∧ charAt (1103527590 % BASE) ∈ ALPHABET.toList
    ∧ charAt (1103527590 % BASE) ≠ 'O' ∧ charAt (1103527590 % BASE) ≠ '0' := by
  have hw : ¬ ((1 : Nat) ≥ MAX_CODES) := by decide
  have ht : transformNumber ⟨1, 0⟩ 1 = 1103527590 := by decide
  have hm : charAt (1103527590 % BASE) ∈ ((generateCode ⟨1, 0⟩).1).toList := by
    simp only [generateCode, if_neg hw, ht]
    exact lastDigit_mem_encodeBase34 _ (by decide)
  have h := generateCode_shape ⟨1, 0⟩
  exact ⟨h.1, h.2.1 _ hm, h.2.2 _ hm⟩

end CodeGen

namespace Server

/-! ## Helper lemmas about the association-list maps -/

theorem find?_map_upd {α : Type} (k : String) (v : α) :
    ∀ m : List (String × α),
      (m.map (fun kv => if kv.1 == k then (k, v) else kv)).find?
          (fun kv => kv.1 == k)
        = if (m.find? (fun kv => kv.1 == k)).isSome then some (k, v) else none := by
  intro m
  induction m with
  | nil => simp
  | cons a as ih =>
      by_cases ha : a.1 == k
      · simp [List.find?, ha]
      · simp only [List.map, List.find?, ha, Bool.false_eq_true, if_false]
        rw [ih]

theorem find?_append_of_none {α : Type} (p : String × α → Bool) :
    ∀ (l1 l2 : List (String × α)), l1.find? p = none →
      (l1 ++ l2).find? p = l2.find? p := by
  intro l1 l2 h
  induction l1 with
  | nil => simp
  | cons a as ih =>
      rw [List.find?] at h
      cases hp : p a with
      | true => simp only [hp] at h; exact absurd h (by simp)
      | false =>
          simp only [hp] at h
          rw [List.cons_append, List.find?, hp]
          exact ih h

theorem mapGet_mapSet_self {α : Type} (m : List (String × α)) (k : String) (v : α) :
    mapGet (mapSet m k v) k = some v := by
  unfold mapGet mapSet
  by_cases h : (m.find? (fun kv => kv.1 == k)).isSome
  · rw [if_pos h, find?_map_upd, if_pos h]
    rfl
  · rw [if_neg h]
    rw [find?_append_of_none _ m _ (by
      cases hf : m.find? (fun kv => kv.1 == k)
      · rfl
      · rw [hf] at h; exact absurd rfl h)]
    simp [List.find?]

theorem length_mapSet {α : Type} (m : List (String × α)) (k : String) (v : α) :
    (mapSet m k v).length ≤ m.length + 1 := by
  unfold mapSet
  by_cases h : (m.find? (fun kv => kv.1 == k)).isSome
  · rw [if_pos h]; simp
  · rw [if_neg h]; simp

/-- When the cache is strictly below its bound, `saveGame` leaves the new
entry in the cache (the eviction discipline does not fire). -/
theorem saveGame_mapGet (db : ServerDB) (code : String) (gs : JsVal) (now : Nat)
    (h : db.savedGames.length < MAX_SAVE_GAMES) :
    mapGet ((saveGame db code gs now).2).savedGames code
      = some (JsVal.entry gs now) := by
  unfold saveGame saveOldestGameIfNeeded
  have hlen := length_mapSet db.savedGames code (JsVal.entry gs now)
  have hle : ¬ ((mapSet db.savedGames code (JsVal.entry gs now)).length
      > MAX_SAVE_GAMES) := by
    unfold MAX_SAVE_GAMES at h ⊢
    omega
  simp only [hle, if_false]
  exact mapGet_mapSet_self _ _ _

/-! ## C4: `loadGame` on a cache miss -/

/-- C4 evaluated at the failing inputs. With an empty cache and the store
holding a blob for `"ABCDEF"`, `loadGame` does not return the blob: the
un-awaited `load_from_db` call makes `saveState` a pending Promise
(resolving to `undefined`, since `load_from_db` crashes on the misspelled
`rozws` and its catch returns `undefined`), and that truthy Promise is
returned and cached. With both cache and store empty it still returns the
truthy Promise, never `null`. -/
theorem loadGame_miss_returns_promise :
    (loadGame ⟨[], [("ABCDEF", JsVal.buf [1, 2, 3])]⟩ "ABCDEF").1
        = JsVal.promise JsVal.undefined
    ∧ (loadGame ⟨[], [("ABCDEF", JsVal.buf [1, 2, 3])]⟩ "ABCDEF").1
        ≠ JsVal.buf [1, 2, 3]
    ∧ mapGet (loadGame ⟨[], [("ABCDEF", JsVal.buf [1, 2, 3])]⟩ "ABCDEF").2.savedGames
        "ABCDEF" = some (JsVal.promise JsVal.undefined)
    ∧ (loadGame ⟨[], []⟩ "ABCDEF").1 ≠ JsVal.jsNull
    ∧ (loadGame ⟨[], []⟩ "ABCDEF").1 ≠ JsVal.undefined := by
  decide

/-! ## C8: range of `randomId` -/

/-- Counterexample for C8 as stated: the 4-byte pattern whose signed 32-bit
reading is `-2^31` makes `Math.abs` return exactly `2^31 = 2147483648`,
which is not strictly below `2^31`. -/
theorem randomId_int_min :
    2147483648 < 2 ^ 32 ∧ ¬ (randomId 2147483648 < 2147483648) := by
  decide

/-- C8, amended: for every 4-byte input, `randomId` returns a value that is
at most `2^31` (strictly below `2^31` except on the single input
`0x80000000`, where it is exactly `2^31`). -/
theorem randomId_le (b : Nat) (h : b < 2 ^ 32) : randomId b ≤ 2 ^ 31 := by
  unfold randomId toInt32
  by_cases hb : b < 2 ^ 31
  · rw [if_pos hb]
    simp only [Int.natAbs_ofNat]
    omega
  · rw [if_neg hb]
    omega

/-- Witness for the amended C8 at `b = 5`. -/
theorem randomId_le_witness : 5 < 2 ^ 32 ∧ randomId 5 ≤ 2 ^ 31 :=
  ⟨by decide, randomId_le 5 (by decide)⟩

/-! ## C5: `Lobby.leave` -/

theorem findIdx?_split (pid : Nat) (back : List Nat) :
    ∀ (front : List Nat) (i : Nat), pid ∉ front →
      (front ++ pid :: back).findIdx? (fun p => p == pid) i
        = some (i + front.length) := by
  intro front
  induction front with
  | nil =>
      intro i _
      simp [List.findIdx?_cons]
  | cons a as ih =>
      intro i h
      have ha : a ≠ pid := fun e => h (by rw [e]; exact List.mem_cons_self _ _)
      rw [List.cons_append, List.findIdx?_cons, if_neg (by simp [ha])]
      rw [ih (i + 1) (fun hm => h (List.mem_cons_of_mem a hm))]
      simp
      omega

theorem eraseIdx_append_len {α : Type} (x : α) (b : List α) :
    ∀ l : List α, (l ++ x :: b).eraseIdx l.length = l ++ b := by
  intro l
  induction l with
  | nil => simp [List.eraseIdx]
  | cons a as ih => simp [List.eraseIdx, ih]

/-- C5. Behaviour of `Lobby.leave` for a member `pid` whose position in the
member list is exhibited as `peers = front ++ pid :: back` (with `pid` not
earlier in the list). If the departing peer is the host and nobody
remains, `leave` reports `shouldClose = true`, sends nothing, and a truthy
game-state blob is saved into the snapshot cache (visible there whenever
the cache is below its bound). If the departing peer is the host and
members remain, the first remaining member becomes host and alone receives
`HOST_CHANGED(1, "You are now the host")`, and `leave` returns `false`.
If the departing peer is not the host (its identity also not being the
reserved in-lobby id 1, per the data-model invariant on random
identities), every remaining member receives `PEER_DISCONNECT` carrying
the departed peer's in-lobby id (its raw identity), and `leave` returns
`false`. -/
theorem leave_spec (l : Lobby) (pid : Nat) (db : ServerDB) (now : Nat)
    (front back : List Nat)
    (hsplit : l.peers = front ++ pid :: back) (hfront : pid ∉ front) :
    (l.host = pid → front ++ back = [] →
      (l.leave pid db now).1 = true
      ∧ (l.leave pid db now).2.2.1 = []
      ∧ (∀ gs, l.gameState = some gs → truthy gs →
          db.savedGames.length < MAX_SAVE_GAMES →
          mapGet (l.leave pid db now).2.2.2.savedGames l.name
            = some (JsVal.entry gs now)))
    ∧ (l.host = pid → front ++ back ≠ [] →
      l.leave pid db now
        = (false,
            { l with peers := front ++ back, host := (front ++ back).headD 0 },
            [((front ++ back).headD 0, ProtoMsg.mk CMD.HOST_CHANGED 1 STR_NEW_HOST)],
            db))
    ∧ (l.host ≠ pid → pid ≠ 1 →
      l.leave pid db now
        = (false, { l with peers := front ++ back },
            (front ++ back).map
              (fun p => (p, ProtoMsg.mk CMD.PEER_DISCONNECT (pid : Int) "")),
            db)) := by
  have hidx : l.peers.findIdx? (fun p => p == pid) = some front.length := by
    rw [hsplit]
    simpa using findIdx?_split pid back front 0 hfront
  have herase : l.peers.eraseIdx front.length = front ++ back := by
    rw [hsplit]
    exact eraseIdx_append_len pid back front
  refine ⟨?_, ?_, ?_⟩
  · intro hhost hempty
    have hassigned : l.getPeerId pid = 1 := by
      unfold Lobby.getPeerId
      rw [if_pos hhost]
    simp only [Lobby.leave, hidx, hassigned, herase, hempty]
    refine ⟨rfl, rfl, ?_⟩
    intro gs hgs htr hlen
    simp only [hgs, jsTruthyOpt, htr, if_pos, Option.getD_some]
    exact saveGame_mapGet db l.name gs now hlen
  · intro hhost hne
    have hassigned : l.getPeerId pid = 1 := by
      unfold Lobby.getPeerId
      rw [if_pos hhost]
    have hempty : (front ++ back).isEmpty = false := by
      cases hfb : front ++ back
      · exact absurd hfb hne
      · rfl
    simp only [Lobby.leave, hidx, hassigned, herase, hempty]
    simp
  · intro hhost hpid1
    have hassigned : l.getPeerId pid = pid := by
      unfold Lobby.getPeerId
      rw [if_neg hhost]
    simp only [Lobby.leave, hidx, hassigned, herase]
    rw [if_neg hpid1]

/-- Witness for C5: non-host peer 7 leaves lobby with host 5 and
members [5, 7, 9]. -/
theorem leave_spec_witness :
    Lobby.leave ⟨"L", 5, false, [5, 7, 9], false, none⟩ 7 ⟨[], []⟩ 0
      = (false, ⟨"L", 5, false, [5, 9], false, none⟩,
          [(5, ProtoMsg.mk CMD.PEER_DISCONNECT 7 ""),
           (9, ProtoMsg.mk CMD.PEER_DISCONNECT 7 "")],
          ⟨[], []⟩) := by
  have h := leave_spec ⟨"L", 5, false, [5, 7, 9], false, none⟩ 7 ⟨[], []⟩ 0
    [5] [9] rfl (by decide)
  exact h.2.2 (by decide) (by decide)

/-! ## C7: sealing -/

/-- C7. `Lobby.seal` fails with `(4000, "Only host can seal the lobby")`
exactly when the caller is not the host (the `throw` happens before any
mutation, so the lobby is unchanged — in this embedding an error carries no
state at all); on success it sets `sealed` and sends `SEAL(0)` to every
member; and a `JOIN` naming the code of a lobby that is registered and
sealed is rejected with `"Lobby is sealed"`. -/
theorem seal_spec (l : Lobby) (pid : Nat) :
    (l.seal pid = Except.error (4000, STR_ONLY_HOST_CAN_SEAL) ↔ pid ≠ l.host)
    ∧ (pid = l.host →
        l.seal pid = Except.ok ({ l with sealed := true },
          l.peers.map (fun p => (p, ProtoMsg.mk CMD.SEAL 0 ""))))
    ∧ (∀ (st : SrvState) (peer : PeerState) (mesh : Bool),
        l.sealed = true → l.name ≠ "" →
        mapGet st.lobbies l.name = some l →
        joinLobby st peer l.name mesh
          = Except.error (4000, STR_LOBBY_IS_SEALED)) := by
  refine ⟨⟨?_, ?_⟩, ?_, ?_⟩
  · intro herr
    intro heq
    rw [Lobby.seal, if_neg (by omega)] at herr
    exact absurd herr (by simp)
  · intro hne
    rw [Lobby.seal, if_pos hne]
  · intro heq
    rw [Lobby.seal, if_neg (by omega)]
  · intro st peer mesh hsealed hname hget
    rw [joinLobby, if_neg hname]
    simp only [hget]
    rw [if_pos hsealed]

/-- Witness for C7: non-host 7 cannot seal; host 5 seals and everyone gets
`SEAL(0)`; joining the sealed lobby fails. -/
theorem seal_spec_witness :
    Lobby.seal ⟨"L", 5, false, [5, 7], false, none⟩ 7
        = Except.error (4000, STR_ONLY_HOST_CAN_SEAL)
    ∧ Lobby.seal ⟨"L", 5, false, [5, 7], false, none⟩ 5
        = Except.ok (⟨"L", 5, false, [5, 7], true, none⟩,
            [(5, ProtoMsg.mk CMD.SEAL 0 ""), (7, ProtoMsg.mk CMD.SEAL 0 "")])
    ∧ joinLobby ⟨[("L", ⟨"L", 5, false, [5, 7], true, none⟩)], ⟨1, 0⟩, ⟨[], []⟩⟩
        ⟨9, ""⟩ "L" false
        = Except.error (4000, STR_LOBBY_IS_SEALED) :=
  ⟨(seal_spec ⟨"L", 5, false, [5, 7], false, none⟩ 7).1.mpr (by decide),
   (seal_spec ⟨"L", 5, false, [5, 7], false, none⟩ 5).2.1 rfl,
   (seal_spec ⟨"L", 5, false, [5, 7], true, none⟩ 9).2.2
     ⟨[("L", ⟨"L", 5, false, [5, 7], true, none⟩)], ⟨1, 0⟩, ⟨[], []⟩⟩
     ⟨9, ""⟩ false rfl (by decide) (by decide)⟩

/-! ## C10: JOIN of an existing lobby while already in a lobby -/

/-- C10. A peer whose `lobby` field is non-empty that sends a JOIN naming
the code of an existing, unsealed lobby is not rejected with
`"Already in a lobby"`: `joinLobby` attaches it — the already-in-a-lobby
check guards only the creation path (empty requested code) and the
snapshot-restore path. -/
theorem join_existing_while_in_lobby (st : SrvState) (peer : PeerState)
    (code : String) (l : Lobby) (mesh : Bool)
    (hcode : code ≠ "") (hl : mapGet st.lobbies code = some l)
    (hseal : l.sealed = false) (_hpl : peer.lobby ≠ "") :
    joinLobby st peer code mesh ≠ Except.error (4000, STR_ALREADY_IN_LOBBY)
    ∧ joinLobby st peer code mesh
        = Except.ok
            ({ st with lobbies := mapSet st.lobbies code ({ l with peers := l.peers ++ [peer.id] }) },
             { peer with lobby := code },
             (l.join peer.id).2.map (fun m => (m.1, Frame.text m.2))
               ++ [(peer.id, Frame.text (ProtoMsg.mk CMD.JOIN 0 code))]) := by
  have hok : joinLobby st peer code mesh
      = Except.ok
          ({ st with lobbies := mapSet st.lobbies code ({ l with peers := l.peers ++ [peer.id] }) },
           { peer with lobby := code },
           (l.join peer.id).2.map (fun m => (m.1, Frame.text m.2))
             ++ [(peer.id, Frame.text (ProtoMsg.mk CMD.JOIN 0 code))]) := by
    rw [joinLobby, if_neg hcode]
    simp only [hl]
    rw [if_neg (by rw [hseal]; exact Bool.false_ne_true)]
    rw [joinFinish]
    simp only [hl]
    simp [Lobby.join]
  refine ⟨?_, hok⟩
  rw [hok]
  simp

/-- Witness for C10: peer 9, already in lobby `"M"`, joins lobby `"L"`. -/
theorem join_existing_while_in_lobby_witness :
    joinLobby ⟨[("L", ⟨"L", 5, false, [5], false, none⟩)], ⟨1, 0⟩, ⟨[], []⟩⟩
        ⟨9, "M"⟩ "L" false
      ≠ Except.error (4000, STR_ALREADY_IN_LOBBY) :=
  (join_existing_while_in_lobby
    ⟨[("L", ⟨"L", 5, false, [5], false, none⟩)], ⟨1, 0⟩, ⟨[], []⟩⟩
    ⟨9, "M"⟩ "L" ⟨"L", 5, false, [5], false, none⟩ false
    (by decide) (by decide) rfl (by decide)).1

/-! ## C6: signaling relay -/

/-- Reduction of `parseMsg` on a relay frame: with a non-negative coerced
type that is none of JOIN/SEAL and is one of OFFER/ANSWER/CANDIDATE, and a
peer whose lobby resolves, the handler reaches the routing `match`. -/
theorem parseMsg_relay_reduce (st : SrvState) (peer : PeerState) (l : Lobby)
    (t i : Int) (d : String) (tv iv dv : JsVal)
    (htv : coerceInt tv = t) (hiv : coerceInt iv = i) (hdv : coerceStr dv = d)
    (hneg : ¬ (t < 0 ∨ i < 0)) (htJoin : ¬ (t = CMD.JOIN))
    (hpl : peer.lobby ≠ "") (hl : mapGet st.lobbies peer.lobby = some l)
    (htSeal : ¬ (t = CMD.SEAL))
    (ht : t = CMD.OFFER ∨ t = CMD.ANSWER ∨ t = CMD.CANDIDATE) :
    parseMsg st peer (InMsg.text tv iv dv)
      = match l.peers.find?
          (fun e => ((e : Nat) : Int) == (if i = 1 then (l.host : Int) else i)) with
        | none => Except.error (4000, STR_INVALID_DEST)
        | some dest =>
            Except.ok (st, peer,
              [(dest, Frame.text
                (ProtoMsg.mk t ((l.getPeerId peer.id : Nat) : Int) d))]) := by
  simp only [parseMsg, htv, hiv, hdv]
  rw [if_neg hneg, if_neg htJoin, if_neg hpl]
  simp only [hl]
  rw [if_neg htSeal, if_pos ht]

/-- C6. For a relayed frame of type OFFER/ANSWER/CANDIDATE from a peer that
is in a lobby: destination id `1` is rewritten to the lobby's host
identity, any other id is used as-is; if no member has the resulting
identity the handler fails with `(4000, "Invalid destination")` and nothing
is sent; otherwise exactly the destination member receives one frame with
the same type, `id` the sender's in-lobby id, and the payload unchanged. -/
theorem relay_spec (st : SrvState) (peer : PeerState) (l : Lobby)
    (t i : Int) (d : String)
    (ht : t = CMD.OFFER ∨ t = CMD.ANSWER ∨ t = CMD.CANDIDATE)
    (hi : 0 ≤ i) (hpl : peer.lobby ≠ "")
    (hl : mapGet st.lobbies peer.lobby = some l) :
    (l.peers.find? (fun e => ((e : Nat) : Int) == (if i = 1 then (l.host : Int) else i))
        = none →
      parseMsg st peer (InMsg.text (JsVal.num (t : ℚ)) (JsVal.num (i : ℚ)) (JsVal.str d))
        = Except.error (4000, STR_INVALID_DEST))
    ∧ (∀ dest,
      l.peers.find? (fun e => ((e : Nat) : Int) == (if i = 1 then (l.host : Int) else i))
        = some dest →
      parseMsg st peer (InMsg.text (JsVal.num (t : ℚ)) (JsVal.num (i : ℚ)) (JsVal.str d))
        = Except.ok (st, peer,
            [(dest, Frame.text (ProtoMsg.mk t ((l.getPeerId peer.id : Nat) : Int) d))])) := by
  have hct : coerceInt (JsVal.num (t : ℚ)) = t := by
    show (⌊((t : ℚ))⌋ : Int) = t
    simp
  have hci : coerceInt (JsVal.num (i : ℚ)) = i := by
    show (⌊((i : ℚ))⌋ : Int) = i
    simp
  have ht0 : 0 ≤ t := by
    rcases ht with h | h | h <;> rw [h] <;> decide
  have hneg : ¬ (t < 0 ∨ i < 0) := by omega
  have htJoin : ¬ (t = CMD.JOIN) := by
    rcases ht with h | h | h <;> rw [h] <;> decide
  have htSeal : ¬ (t = CMD.SEAL) := by
    rcases ht with h | h | h <;> rw [h] <;> decide
  have hred := parseMsg_relay_reduce st peer l t i d
    (JsVal.num (t : ℚ)) (JsVal.num (i : ℚ)) (JsVal.str d)
    hct hci rfl hneg htJoin hpl hl htSeal ht
  constructor
  · intro hnone
    rw [hred, hnone]
  · intro dest hsome
    rw [hred, hsome]

/-- Witness for C6: peer 7 in lobby `"L"` (host 5) sends `OFFER` to id 1;
host 5 receives `OFFER` stamped with sender id 7. -/
theorem relay_spec_witness :
    parseMsg ⟨[("L", ⟨"L", 5, false, [5, 7], false, none⟩)], ⟨1, 0⟩, ⟨[], []⟩⟩
        ⟨7, "L"⟩
        (InMsg.text (JsVal.num ((CMD.OFFER : Int) : ℚ)) (JsVal.num ((1 : Int) : ℚ))
          (JsVal.str "sdp"))
      = Except.ok
          (⟨[("L", ⟨"L", 5, false, [5, 7], false, none⟩)], ⟨1, 0⟩, ⟨[], []⟩⟩,
           ⟨7, "L"⟩, [(5, Frame.text (ProtoMsg.mk CMD.OFFER 7 "sdp"))]) := by
  have h := relay_spec
    ⟨[("L", ⟨"L", 5, false, [5, 7], false, none⟩)], ⟨1, 0⟩, ⟨[], []⟩⟩
    ⟨7, "L"⟩ ⟨"L", 5, false, [5, 7], false, none⟩ CMD.OFFER 1 "sdp"
    (Or.inl rfl) (by decide) (by decide) (by decide)
  exact h.2 5 (by decide)

/-! ## C9: envelope validation -/

/-- C9, amended. The handler rejects a textual envelope with
`(4000, "Invalid message format")` exactly when the coerced `type` or `id`
is negative, where coercion maps a non-numeric field to `-1` and a numeric
field to its floor. (A *positive* non-integer numeric field is floored and
processed — see the counterexample.) -/
theorem invalid_envelope_rejected (st : SrvState) (peer : PeerState)
    (tv iv dv : JsVal) (h : coerceInt tv < 0 ∨ coerceInt iv < 0) :
    parseMsg st peer (InMsg.text tv iv dv)
      = Except.error (4000, STR_INVALID_FORMAT) := by
  simp only [parseMsg]
  rw [if_pos h]

/-- Witness for the amended C9: a string-valued `type` coerces to `-1` and
the envelope is rejected. -/
theorem invalid_envelope_rejected_witness :
    parseMsg ⟨[], ⟨1, 0⟩, ⟨[], []⟩⟩ ⟨5, ""⟩
        (InMsg.text (JsVal.str "JOIN") JsVal.undefined JsVal.undefined)
      = Except.error (4000, STR_INVALID_FORMAT) :=
  invalid_envelope_rejected ⟨[], ⟨1, 0⟩, ⟨[], []⟩⟩ ⟨5, ""⟩
    (JsVal.str "JOIN") JsVal.undefined JsVal.undefined (Or.inl (by decide))

/-- Counterexample for C9 as stated: an envelope with the non-integer
numeric type `4.7` is *not* rejected as invalid — `Math.floor` turns it
into `4` and it is processed as an OFFER relay. -/
theorem nonInteger_type_processed :
    parseMsg ⟨[("L", ⟨"L", 5, false, [5, 7], false, none⟩)], ⟨1, 0⟩, ⟨[], []⟩⟩
        ⟨7, "L"⟩
        (InMsg.text (JsVal.num (47 / 10)) (JsVal.num 1) (JsVal.str "sdp"))
      ≠ Except.error (4000, STR_INVALID_FORMAT)
    ∧ parseMsg ⟨[("L", ⟨"L", 5, false, [5, 7], false, none⟩)], ⟨1, 0⟩, ⟨[], []⟩⟩
        ⟨7, "L"⟩
        (InMsg.text (JsVal.num (47 / 10)) (JsVal.num 1) (JsVal.str "sdp"))
      = Except.ok
          (⟨[("L", ⟨"L", 5, false, [5, 7], false, none⟩)], ⟨1, 0⟩, ⟨[], []⟩⟩,
           ⟨7, "L"⟩, [(5, Frame.text (ProtoMsg.mk 4 7 "sdp"))]) := by
  have h1 : coerceInt (JsVal.num (47 / 10)) = 4 := by
    show (⌊(47 / 10 : ℚ)⌋ : Int) = 4
    norm_num
  have h2 : coerceInt (JsVal.num 1) = 1 := by
    show (⌊(1 : ℚ)⌋ : Int) = 1
    norm_num
  have hred := parseMsg_relay_reduce
    ⟨[("L", ⟨"L", 5, false, [5, 7], false, none⟩)], ⟨1, 0⟩, ⟨[], []⟩⟩
    ⟨7, "L"⟩ ⟨"L", 5, false, [5, 7], false, none⟩ 4 1 "sdp"
    (JsVal.num (47 / 10)) (JsVal.num 1) (JsVal.str "sdp")
    h1 h2 rfl (by decide) (by decide) (by decide) (by decide) (by decide)
    (Or.inl (by decide))
  have hfind : ([5, 7] : List Nat).find?
      (fun e => ((e : Nat) : Int) == (if (1 : Int) = 1 then ((5 : Nat) : Int) else 1))
      = some 5 := by decide
  have hok : parseMsg ⟨[("L", ⟨"L", 5, false, [5, 7], false, none⟩)], ⟨1, 0⟩, ⟨[], []⟩⟩
      ⟨7, "L"⟩ (InMsg.text (JsVal.num (47 / 10)) (JsVal.num 1) (JsVal.str "sdp"))
      = Except.ok
          (⟨[("L", ⟨"L", 5, false, [5, 7], false, none⟩)], ⟨1, 0⟩, ⟨[], []⟩⟩,
           ⟨7, "L"⟩, [(5, Frame.text (ProtoMsg.mk 4 7 "sdp"))]) := by
    rw [hred]
    rw [hfind]
    rfl
  refine ⟨?_, hok⟩
  rw [hok]
  simp

end Server
